import Mathlib

/-!
Shallow embedding of `exporter/signalfxexporter/exporter.go` (SignalFx
exporter facade of the OpenTelemetry collector contrib repository), together
with proofs about its push paths, header construction, start-time wiring and
the metadata-update coordinator contract.

Batches (`pmetric.Metrics` / `plog.Logs`) are opaque and modelled as `Nat`
tokens; the inner data-plane functions `pushMetricsData` / `pushLogsData`
(fields of `signalfxExporter`, set by `start` from the sfx clients) are
abstract functions from a batch to a result `(dropped, err)`. Go `error`
values are `Option String` (`none` = nil). Side effects of the host-metadata
syncer are modelled by an explicit state `S` threaded through `pushMetrics`,
and the observable call sequence is recorded as a trace of events.
-/

namespace SignalFx

/-- Result of an inner push call: the dropped-record count and the Go error
(`none` models a nil error). Mirrors the return types of the
`pushMetricsData` / `pushLogsData` fields of `signalfxExporter`. -/
structure PushResult where
  dropped : Nat
  err : Option String
deriving DecidableEq, Repr

/-- Observable events of one facade call: the dispatch of a batch through the
inner push function (with its result), and a call to the host-metadata
syncer's Sync method on a batch. -/
inductive Event where
  | dispatchMetrics (batch : Nat) (res : PushResult)
  | dispatchLogs (batch : Nat) (res : PushResult)
  | syncCall (batch : Nat)
deriving DecidableEq, Repr

/-- The host-metadata syncer (`hostmetadata.Syncer`): its Sync method is an
arbitrary effect on the syncer/coordinator state `S`. -/
structure Syncer (S : Type) where
  sync : Nat → S → S

/-- The fields of `signalfxExporter` that the push paths read: the two inner
data-plane functions and the optional host-metadata syncer (a Go nil pointer
is `none`). -/
structure Exporter (S : Type) where
  pushMetricsData : Nat → PushResult
  pushLogsData : Nat → PushResult
  hostMetadataSyncer : Option (Syncer S)

/-- `pushMetrics` (exporter.go lines 246-252):
`_, err := se.pushMetricsData(ctx, md)`; if `err == nil` and the syncer is
non-nil, call `Sync(md)`; return `err`. The result is the returned error,
the state after any Sync effect, and the event trace. -/
def pushMetrics {S : Type} (se : Exporter S) (md : Nat) (s : S) :
    Option String × S × List Event :=
  let r := se.pushMetricsData md
  match r.err, se.hostMetadataSyncer with
  | none, some sy => (none, sy.sync md s, [Event.dispatchMetrics md r, Event.syncCall md])
  | e, _ => (e, s, [Event.dispatchMetrics md r])

/-- `pushLogs` (exporter.go lines 254-257):
`_, err := se.pushLogsData(ctx, ld)`; return `err`. No sync, no state
change. -/
def pushLogs {S : Type} (se : Exporter S) (ld : Nat) (s : S) :
    Option String × S × List Event :=
  let r := se.pushLogsData ld
  (r.err, s, [Event.dispatchLogs ld r])

/-- A Go map of header names to values, as an association list with unique
keys maintained by `hmapSet`. -/
abbrev HMap := List (String × String)

/-- Map assignment `m[k] = v`: replace the entry for `k`, or append it. -/
def hmapSet : HMap → String → String → HMap
  | [], k, v => [(k, v)]
  | p :: t, k, v => if p.1 = k then (k, v) :: hmapSet t k v else p :: hmapSet t k v

/-- Map lookup `m[k]`. -/
def hmapFind : HMap → String → Option String
  | [], _ => none
  | p :: t, k => if p.1 = k then some p.2 else hmapFind t k

/-- The value the LAST occurrence of key `k` carries in a list of header
pairs; folding `hmapSet` over the list makes this occurrence win. -/
def lastVal : List (String × String) → String → Option String
  | [], _ => none
  | p :: t, k =>
      match lastVal t k with
      | some v => some v
      | none => if p.1 = k then some p.2 else none

/-- The TLS settings, idle-connection knobs and header map of
`confighttp.HTTPClientSettings` that exporter.go reads or writes; the Go nil
map is `none`. TLS settings are opaque. -/
structure HTTPClientSettings where
  headers : Option (List (String × String))
  tlsSetting : String
  maxIdleConns : Option Nat
  maxIdleConnsPerHost : Option Nat
  idleConnTimeout : Option Nat
deriving DecidableEq, Repr

/-- The fields of the exporter `Config` that the code under exporter.go
reads: the access token, the passthrough and host-metadata-sync flags, the
connection bound and the embedded HTTP client settings. -/
structure Config where
  accessToken : String
  accessTokenPassthrough : Bool
  syncHostMetadata : Bool
  maxConnections : Nat
  httpClientSettings : HTTPClientSettings
deriving DecidableEq, Repr

/-- The header name of `splunk.SFxAccessTokenHeader` (internal/splunk). -/
def sfxAccessTokenHeader : String := "X-Sf-Token"

/-- `buildHeaders` (exporter.go lines 259-280): predefine Connection,
Content-Type and User-Agent; add the access-token header when the configured
token is nonempty; copy every custom header from
`config.HTTPClientSettings.Headers` over the predefined ones; finally set
`config.HTTPClientSettings.Headers = nil`. Returns the built map and the
config after that mutation. -/
def buildHeaders (config : Config) : HMap × Config :=
  let headers : HMap :=
    [("Connection", "keep-alive"),
     ("Content-Type", "application/x-protobuf"),
     ("User-Agent", "OpenTelemetry-Collector SignalFx Exporter/v0.0.1")]
  let headers :=
    if config.accessToken ≠ "" then hmapSet headers sfxAccessTokenHeader config.accessToken
    else headers
  let headers :=
    (config.httpClientSettings.headers.getD []).foldl (fun m p => hmapSet m p.1 p.2) headers
  (headers,
   { config with httpClientSettings := { config.httpClientSettings with headers := none } })

/-- The options record `exporterOptions` (exporter.go lines 74-84), with the
URLs, the timeout and the token as scalars; TLS settings and the metric
translator are omitted (opaque to the claims). -/
structure ExporterOptions where
  ingestURL : String
  apiURL : String
  httpTimeout : Nat
  token : String
  logDataPoints : Bool
  logDimUpdate : Bool
deriving DecidableEq, Repr

/-- The fields of `dimensions.DimensionClientOptions` that start fills
(exporter.go lines 152-166): token, API URL, update logging, the send delay
and the bound on buffered property updates. -/
structure DimensionClientOptions where
  token : String
  apiURL : String
  logUpdates : Bool
  sendDelay : Nat
  propertiesMaxBuffered : Nat
deriving DecidableEq, Repr

/-- Construction and start of the dimension client inside `start`
(exporter.go lines 150-167): the options passed to NewDimensionClient —
SendDelay and PropertiesMaxBuffered are the literals 10 and 10000 — and the
Start() call that launches the background loop (`true` = launched). -/
def startDim (options : ExporterOptions) : DimensionClientOptions × Bool :=
  ({ token := options.token, apiURL := options.apiURL, logUpdates := options.logDimUpdate,
     sendDelay := 10, propertiesMaxBuffered := 10000 }, true)

/-- The syncer wiring of `start` (exporter.go lines 169-175): the exporter's
pushMetricsData / pushLogsData fields come from the data-plane clients
(abstract here), and hostMetadataSyncer is a fresh syncer exactly when
config.SyncHostMetadata is set, nil otherwise. -/
def startExporter {S : Type} (pmd pld : Nat → PushResult) (sy : Syncer S)
    (config : Config) : Exporter S :=
  { pushMetricsData := pmd, pushLogsData := pld,
    hostMetadataSyncer := if config.syncHostMetadata then some sy else none }

/-- Modelled from the spec: a property update handled by the Metadata Update
Coordinator (the `dimensions` package, whose code is not among the embedded
sources): a resource key, a name-to-value property mapping and a tag set,
identified by resourceKey. -/
structure PropertyUpdate where
  resourceKey : String
  properties : List (String × String)
  tags : List String
deriving DecidableEq, Repr

/-- Modelled from the spec: coalescing two updates for one resourceKey —
later scalar property values win per field, tag sets are unioned. -/
def coalesce (old upd : PropertyUpdate) : PropertyUpdate :=
  { resourceKey := old.resourceKey,
    properties := upd.properties.foldl (fun m p => hmapSet m p.1 p.2) old.properties,
    tags := old.tags ++ upd.tags.filter (fun t => !(old.tags.contains t)) }

/-- Lifecycle phase of the Metadata Update Coordinator. -/
inductive CoordPhase where
  | idle
  | running
  | stopped
deriving DecidableEq, Repr

/-- Lookup of the pending update stored for a resource key. -/
def pendLookup : List (String × PropertyUpdate) → String → Option PropertyUpdate
  | [], _ => none
  | p :: t, k => if p.1 = k then some p.2 else pendLookup t k

/-- Modelled from the spec: the state of the Metadata Update Coordinator
(`dimensions.DimensionClient`, whose code is not among the embedded
sources): the bounded pending map, its capacity, the rejected-update counter
and the lifecycle phase. -/
structure CoordState where
  pending : List (String × PropertyUpdate)
  capacity : Nat
  rejected : Nat
  phase : CoordPhase
deriving DecidableEq, Repr

/-- Modelled from the spec: a freshly constructed Coordinator with the given
capacity: empty pending, zero rejections, not yet started. -/
def initCoord (capacity : Nat) : CoordState :=
  { pending := [], capacity := capacity, rejected := 0, phase := .idle }

/-- Modelled from the spec: enqueue coalesces into pending by resourceKey; a
new key is accepted only below capacity, otherwise the update is rejected
and the rejection counter incremented; enqueue after stop is the defined
no-op returning false (must not crash). -/
def CoordState.enqueue (st : CoordState) (u : PropertyUpdate) : Bool × CoordState :=
  match st.phase with
  | .stopped => (false, st)
  | _ =>
    match pendLookup st.pending u.resourceKey with
    | some old =>
        let merged := st.pending.map (fun p => if p.1 = u.resourceKey then (p.1, coalesce old u) else p)
        (true, { st with pending := merged })
    | none =>
        if st.pending.length < st.capacity then
          (true, { st with pending := st.pending ++ [(u.resourceKey, u)] })
        else
          (false, { st with rejected := st.rejected + 1 })

/-- Modelled from the spec: a flush tick atomically drains pending into a
flush batch and clears it. -/
def CoordState.flushDrain (st : CoordState) : List PropertyUpdate × CoordState :=
  (st.pending.map Prod.snd, { st with pending := [] })

/-- Modelled from the spec: start launches the background flush loop;
starting twice is the defined no-op. -/
def CoordState.start (st : CoordState) : CoordState :=
  match st.phase with
  | .idle => { st with phase := .running }
  | _ => st

/-- Modelled from the spec: stop terminates the loop after one final
best-effort flush of whatever remains pending; stopping when not running
flushes nothing and still leaves the coordinator stopped. -/
def CoordState.stop (st : CoordState) : List PropertyUpdate × CoordState :=
  match st.phase with
  | .running => (st.pending.map Prod.snd, { st with pending := [], phase := .stopped })
  | _ => ([], { st with phase := .stopped })

theorem hmapFind_hmapSet (m : HMap) (k v k' : String) :
    hmapFind (hmapSet m k v) k' = if k = k' then some v else hmapFind m k' := by
  induction m with
  | nil =>
      by_cases h : k = k' <;> simp [hmapSet, hmapFind, h]
  | cons p t ih =>
      by_cases hp : p.1 = k
      · by_cases h : k = k'
        · simp [hmapSet, hmapFind, hp, h]
        · simp [hmapSet, hmapFind, hp, h, ih]
      · by_cases h : k = k'
        · subst h
          simp [hmapSet, hmapFind, hp, ih]
        · simp [hmapSet, hmapFind, hp, ih, h]

theorem hmapFind_foldl_hmapSet (hs : List (String × String)) (m : HMap) (k : String) :
    hmapFind (hs.foldl (fun acc p => hmapSet acc p.1 p.2) m) k =
      match lastVal hs k with
      | some v => some v
      | none => hmapFind m k := by
  induction hs generalizing m with
  | nil => simp [lastVal]
  | cons p t ih =>
      simp only [List.foldl_cons, lastVal, ih (hmapSet m p.1 p.2), hmapFind_hmapSet]
      rcases lastVal t k with _ | v <;> by_cases h : p.1 = k <;> simp [h]

theorem buildHeaders_find (config : Config) (k : String) :
    hmapFind (buildHeaders config).1 k =
      match lastVal (config.httpClientSettings.headers.getD []) k with
      | some v => some v
      | none =>
          if config.accessToken ≠ "" ∧ sfxAccessTokenHeader = k then some config.accessToken
          else hmapFind [("Connection", "keep-alive"),
                         ("Content-Type", "application/x-protobuf"),
                         ("User-Agent", "OpenTelemetry-Collector SignalFx Exporter/v0.0.1")] k := by
  show hmapFind
      ((config.httpClientSettings.headers.getD []).foldl (fun m p => hmapSet m p.1 p.2)
        (if config.accessToken ≠ "" then
          hmapSet [("Connection", "keep-alive"),
                   ("Content-Type", "application/x-protobuf"),
                   ("User-Agent", "OpenTelemetry-Collector SignalFx Exporter/v0.0.1")]
            sfxAccessTokenHeader config.accessToken
         else
          [("Connection", "keep-alive"),
           ("Content-Type", "application/x-protobuf"),
           ("User-Agent", "OpenTelemetry-Collector SignalFx Exporter/v0.0.1")])) k = _
  rw [hmapFind_foldl_hmapSet]
  rcases h : lastVal (config.httpClientSettings.headers.getD []) k with _ | v
  · simp only [h]
    by_cases ht : config.accessToken ≠ ""
    · rw [if_pos ht, hmapFind_hmapSet]
      by_cases hk : sfxAccessTokenHeader = k <;> simp [hk, ht]
    · rw [if_neg ht]
      simp [ht]
  · simp [h]

end SignalFx

namespace SignalFx

/-- C1: for every metrics batch, pushMetrics dispatches through the inner
push function; Sync is invoked if and only if the dispatch error is nil and
a host-metadata syncer is configured; and the value pushMetrics returns
equals the dispatch error, independent of which syncer (and which sync
behaviour) is installed. -/
theorem pushMetrics_dispatch_sync_iff {S : Type} (se : Exporter S) (md : Nat) (s : S) :
    (pushMetrics se md s).1 = (se.pushMetricsData md).err ∧
    Event.dispatchMetrics md (se.pushMetricsData md) ∈ (pushMetrics se md s).2.2 ∧
    (Event.syncCall md ∈ (pushMetrics se md s).2.2 ↔
      (se.pushMetricsData md).err = none ∧ se.hostMetadataSyncer.isSome = true) ∧
    (∀ sy1 sy2 : Syncer S,
      (pushMetrics { se with hostMetadataSyncer := some sy1 } md s).1 =
        (pushMetrics { se with hostMetadataSyncer := some sy2 } md s).1) := by
  constructor
  · unfold pushMetrics
    rcases h : (se.pushMetricsData md).err with _ | e <;>
      rcases hsy : se.hostMetadataSyncer with _ | sy <;> simp [h, hsy]
  constructor
  · unfold pushMetrics
    rcases h : (se.pushMetricsData md).err with _ | e <;>
      rcases hsy : se.hostMetadataSyncer with _ | sy <;> simp [h, hsy]
  constructor
  · unfold pushMetrics
    rcases h : (se.pushMetricsData md).err with _ | e <;>
      rcases hsy : se.hostMetadataSyncer with _ | sy <;> simp [h, hsy]
  · intro sy1 sy2
    unfold pushMetrics
    rcases h : (se.pushMetricsData md).err with _ | e <;> simp [h]

/-- C2: temporal ordering of the metadata side effect: when the inner push
(dispatch) returns a non-nil error, Sync is never called; when Sync is in
the trace, the trace is exactly the dispatch event followed by the sync
event (so Sync happens strictly after a dispatch that returned success);
and the value returned is the dispatch error, so the sync branch cannot
change the push's result. -/
theorem pushMetrics_sync_strictly_after_success {S : Type} (se : Exporter S) (md : Nat) (s : S) :
    ((se.pushMetricsData md).err ≠ none →
      Event.syncCall md ∉ (pushMetrics se md s).2.2) ∧
    (Event.syncCall md ∈ (pushMetrics se md s).2.2 →
      (pushMetrics se md s).2.2 =
        [Event.dispatchMetrics md (se.pushMetricsData md), Event.syncCall md] ∧
      (se.pushMetricsData md).err = none) ∧
    (pushMetrics se md s).1 = (se.pushMetricsData md).err := by
  unfold pushMetrics
  rcases h : (se.pushMetricsData md).err with _ | e <;>
    rcases hsy : se.hostMetadataSyncer with _ | sy <;> simp [h, hsy]

/-- C2 witness: a concrete exporter whose inner push fails with an error;
applying the theorem there shows Sync is not in the trace. -/
theorem pushMetrics_sync_strictly_after_success_witness :
    Event.syncCall 0 ∉
      (pushMetrics (S := Unit)
        { pushMetricsData := fun _ => { dropped := 3, err := some "transport" },
          pushLogsData := fun _ => { dropped := 0, err := none },
          hostMetadataSyncer := some { sync := fun _ s => s } } 0 ()).2.2 :=
  (pushMetrics_sync_strictly_after_success
    { pushMetricsData := fun _ => { dropped := 3, err := some "transport" },
      pushLogsData := fun _ => { dropped := 0, err := none },
      hostMetadataSyncer := some { sync := fun _ s => s } } 0 ()).1 (by simp)

/-- C3 counterexample: the dropped-record count is NOT reported upward by
pushMetrics or pushLogs. Two exporters whose inner pushes drop different
counts (1 versus 2) with a nil error produce identical return values (and
identical states and traces would differ only in the recorded result): the
caller receives only the error, here `none`, from which the dropped count
cannot be recovered. -/
theorem push_dropped_count_not_reported :
    (pushMetrics (S := Unit)
      { pushMetricsData := fun _ => { dropped := 1, err := none },
        pushLogsData := fun _ => { dropped := 1, err := none },
        hostMetadataSyncer := none } 0 ()).1 =
      (pushMetrics (S := Unit)
        { pushMetricsData := fun _ => { dropped := 2, err := none },
          pushLogsData := fun _ => { dropped := 2, err := none },
          hostMetadataSyncer := none } 0 ()).1 ∧
    (pushLogs (S := Unit)
      { pushMetricsData := fun _ => { dropped := 1, err := none },
        pushLogsData := fun _ => { dropped := 1, err := none },
        hostMetadataSyncer := none } 0 ()).1 =
      (pushLogs (S := Unit)
        { pushMetricsData := fun _ => { dropped := 2, err := none },
          pushLogsData := fun _ => { dropped := 2, err := none },
          hostMetadataSyncer := none } 0 ()).1 ∧
    (PushResult.mk 1 none).dropped ≠ (PushResult.mk 2 none).dropped := by
  refine ⟨rfl, rfl, by decide⟩

/-- C3 amended: pushMetrics and pushLogs discard the dropped counts returned
by the inner push functions (assigning them to the blank identifier); only
the error reaches the caller, and the returned value is the same whatever
the dropped counts were. -/
theorem push_return_ignores_dropped {S : Type} (d1 d2 : Nat → Nat)
    (e el : Nat → Option String) (sy : Option (Syncer S))
    (pld pmd : Nat → PushResult) (md ld : Nat) (s : S) :
    (pushMetrics { pushMetricsData := (fun n => ⟨d1 n, e n⟩), pushLogsData := pld,
                   hostMetadataSyncer := sy } md s).1 = e md ∧
    (pushMetrics { pushMetricsData := (fun n => ⟨d2 n, e n⟩), pushLogsData := pld,
                   hostMetadataSyncer := sy } md s).1 = e md ∧
    (pushLogs { pushMetricsData := pmd, pushLogsData := (fun n => ⟨d1 n, el n⟩),
                hostMetadataSyncer := sy } ld s).1 = el ld ∧
    (pushLogs { pushMetricsData := pmd, pushLogsData := (fun n => ⟨d2 n, el n⟩),
                hostMetadataSyncer := sy } ld s).1 = el ld := by
  refine ⟨?_, ?_, rfl, rfl⟩ <;>
  · unfold pushMetrics
    rcases h : e md with _ | v <;> rcases hsy : sy with _ | sy0 <;> simp [h, hsy]

/-- C4: for every logs batch, pushLogs only dispatches through the inner log
push function: its return value equals the dispatch error, the external
state is untouched (no metadata sync, no property-update enqueue), and the
trace holds exactly the dispatch event — never a sync call. -/
theorem pushLogs_dispatch_only {S : Type} (se : Exporter S) (ld : Nat) (s : S) :
    (pushLogs se ld s).1 = (se.pushLogsData ld).err ∧
    (pushLogs se ld s).2.1 = s ∧
    (pushLogs se ld s).2.2 = [Event.dispatchLogs ld (se.pushLogsData ld)] ∧
    ∀ b : Nat, Event.syncCall b ∉ (pushLogs se ld s).2.2 := by
  refine ⟨rfl, rfl, rfl, ?_⟩
  intro b
  simp [pushLogs]

/-- C5 counterexample: the built header set does not always contain the
auth-token header. For a config whose AccessToken is empty (and no custom
headers), the token header is absent from the result of buildHeaders. -/
theorem buildHeaders_token_absent :
    hmapFind (buildHeaders
      { accessToken := "", accessTokenPassthrough := false, syncHostMetadata := false,
        maxConnections := 0,
        httpClientSettings := { headers := none, tlsSetting := "", maxIdleConns := none,
                                maxIdleConnsPerHost := none, idleConnTimeout := none } }).1
      sfxAccessTokenHeader = none := by
  decide

/-- C5 amended: the built header set always contains Connection, Content-Type
and User-Agent entries (with their predefined values when no caller header
overrides them); it contains the auth-token header, with the configured
token, exactly when the configured access token is nonempty (unless a caller
header supplies that name); and on every header-name conflict the
caller-supplied (config) value wins — buildHeaders itself never sets
content-encoding, whose control happens at payload time outside this
function. -/
theorem buildHeaders_headers_spec (config : Config) :
    (lastVal (config.httpClientSettings.headers.getD []) "Connection" = none →
      hmapFind (buildHeaders config).1 "Connection" = some "keep-alive") ∧
    (lastVal (config.httpClientSettings.headers.getD []) "Content-Type" = none →
      hmapFind (buildHeaders config).1 "Content-Type" = some "application/x-protobuf") ∧
    (lastVal (config.httpClientSettings.headers.getD []) "User-Agent" = none →
      hmapFind (buildHeaders config).1 "User-Agent" =
        some "OpenTelemetry-Collector SignalFx Exporter/v0.0.1") ∧
    (lastVal (config.httpClientSettings.headers.getD []) sfxAccessTokenHeader = none →
      hmapFind (buildHeaders config).1 sfxAccessTokenHeader =
        if config.accessToken = "" then none else some config.accessToken) ∧
    (∀ k v, lastVal (config.httpClientSettings.headers.getD []) k = some v →
      hmapFind (buildHeaders config).1 k = some v) := by
  refine ⟨?_, ?_, ?_, ?_, ?_⟩
  · intro h
    rw [buildHeaders_find, h]
    by_cases ht : config.accessToken ≠ "" <;> simp [ht, sfxAccessTokenHeader, hmapFind]
  · intro h
    rw [buildHeaders_find, h]
    by_cases ht : config.accessToken ≠ "" <;> simp [ht, sfxAccessTokenHeader, hmapFind]
  · intro h
    rw [buildHeaders_find, h]
    by_cases ht : config.accessToken ≠ "" <;> simp [ht, sfxAccessTokenHeader, hmapFind]
  · intro h
    rw [buildHeaders_find, h]
    by_cases ht : config.accessToken = "" <;> simp [ht, sfxAccessTokenHeader, hmapFind]
  · intro k v h
    rw [buildHeaders_find, h]

/-- C5 witness: on a concrete config with token "tok" and a caller header
overriding Connection, the override wins in the built header set. -/
theorem buildHeaders_headers_spec_witness :
    hmapFind (buildHeaders
      { accessToken := "tok", accessTokenPassthrough := true, syncHostMetadata := true,
        maxConnections := 4,
        httpClientSettings := { headers := some [("Connection", "close")], tlsSetting := "",
                                maxIdleConns := none, maxIdleConnsPerHost := none,
                                idleConnTimeout := none } }).1 "Connection" = some "close" :=
  (buildHeaders_headers_spec
    { accessToken := "tok", accessTokenPassthrough := true, syncHostMetadata := true,
      maxConnections := 4,
      httpClientSettings := { headers := some [("Connection", "close")], tlsSetting := "",
                              maxIdleConns := none, maxIdleConnsPerHost := none,
                              idleConnTimeout := none } }).2.2.2.2
    "Connection" "close" (by decide)

/-- C10: buildHeaders mutates its config argument: after it returns,
HTTPClientSettings.Headers is nil for every input config (so the custom
headers survive only in the returned map), and every other modelled field
of the config is unchanged. -/
theorem buildHeaders_clears_config_headers (config : Config) :
    (buildHeaders config).2.httpClientSettings.headers = none ∧
    (buildHeaders config).2.accessToken = config.accessToken ∧
    (buildHeaders config).2.accessTokenPassthrough = config.accessTokenPassthrough ∧
    (buildHeaders config).2.syncHostMetadata = config.syncHostMetadata ∧
    (buildHeaders config).2.maxConnections = config.maxConnections ∧
    (buildHeaders config).2.httpClientSettings.tlsSetting =
      config.httpClientSettings.tlsSetting ∧
    (buildHeaders config).2.httpClientSettings.maxIdleConns =
      config.httpClientSettings.maxIdleConns ∧
    (buildHeaders config).2.httpClientSettings.maxIdleConnsPerHost =
      config.httpClientSettings.maxIdleConnsPerHost ∧
    (buildHeaders config).2.httpClientSettings.idleConnTimeout =
      config.httpClientSettings.idleConnTimeout :=
  ⟨rfl, rfl, rfl, rfl, rfl, rfl, rfl, rfl, rfl⟩

/-- C6 counterexample: the flush interval and the pending capacity of the
dimension client are NOT supplied by configuration: two option records that
differ in every configurable field yield a dimension client with the same
SendDelay 10 and PropertiesMaxBuffered 10000 — both are hard-coded literals
in start (the source comments even note they "might be worth being made
configurable"). -/
theorem startDim_constants_counterexample :
    ({ ingestURL := "https://ingest.a", apiURL := "https://api.a", httpTimeout := 1,
       token := "t1", logDataPoints := true, logDimUpdate := true } : ExporterOptions) ≠
      ({ ingestURL := "https://ingest.b", apiURL := "https://api.b", httpTimeout := 2,
         token := "t2", logDataPoints := false, logDimUpdate := false } : ExporterOptions) ∧
    (startDim { ingestURL := "https://ingest.a", apiURL := "https://api.a", httpTimeout := 1,
                token := "t1", logDataPoints := true,
                logDimUpdate := true }).1.sendDelay = 10 ∧
    (startDim { ingestURL := "https://ingest.b", apiURL := "https://api.b", httpTimeout := 2,
                token := "t2", logDataPoints := false,
                logDimUpdate := false }).1.sendDelay = 10 ∧
    (startDim { ingestURL := "https://ingest.a", apiURL := "https://api.a", httpTimeout := 1,
                token := "t1", logDataPoints := true,
                logDimUpdate := true }).1.propertiesMaxBuffered = 10000 ∧
    (startDim { ingestURL := "https://ingest.b", apiURL := "https://api.b", httpTimeout := 2,
                token := "t2", logDataPoints := false,
                logDimUpdate := false }).1.propertiesMaxBuffered = 10000 :=
  ⟨by decide, rfl, rfl, rfl, rfl⟩

/-- C6 amended: start constructs the dimension client with the hard-coded
send delay 10 (the 10-second-scale flush interval) and the hard-coded bound
10000 on buffered property updates — fixed literals, not configuration
values — passes the configured token and API URL through, and launches the
background flush loop via Start() at that point. -/
theorem startDim_spec (o : ExporterOptions) :
    (startDim o).1.sendDelay = 10 ∧ (startDim o).1.propertiesMaxBuffered = 10000 ∧
    (startDim o).1.token = o.token ∧ (startDim o).1.apiURL = o.apiURL ∧
    (startDim o).2 = true :=
  ⟨rfl, rfl, rfl, rfl, rfl⟩

/-- C9: host metadata sync is gated on configuration: when SyncHostMetadata
is not set, start leaves hostMetadataSyncer nil, and then no pushMetrics
call ever invokes Sync or touches the syncer/coordinator state, whatever the
dispatch outcome; the returned error is still the dispatch error. -/
theorem start_sync_gating {S : Type} (pmd pld : Nat → PushResult) (sy : Syncer S)
    (config : Config) (h : config.syncHostMetadata = false) :
    (startExporter pmd pld sy config).hostMetadataSyncer = none ∧
    ∀ (md : Nat) (s : S),
      (pushMetrics (startExporter pmd pld sy config) md s).2.1 = s ∧
      Event.syncCall md ∉ (pushMetrics (startExporter pmd pld sy config) md s).2.2 ∧
      (pushMetrics (startExporter pmd pld sy config) md s).1 = (pmd md).err := by
  refine ⟨by simp [startExporter, h], ?_⟩
  intro md s
  unfold pushMetrics
  rcases he : (pmd md).err with _ | e <;> simp [startExporter, h, he]

/-- C9 witness: a concrete config with SyncHostMetadata unset; applying the
theorem shows the wired exporter carries no syncer. -/
theorem start_sync_gating_witness :
    (startExporter (S := Unit) (fun _ => { dropped := 0, err := none })
      (fun _ => { dropped := 0, err := none }) { sync := fun _ s => s }
      { accessToken := "tok", accessTokenPassthrough := false, syncHostMetadata := false,
        maxConnections := 2,
        httpClientSettings := { headers := none, tlsSetting := "", maxIdleConns := none,
                                maxIdleConnsPerHost := none,
                                idleConnTimeout := none } }).hostMetadataSyncer = none :=
  (start_sync_gating (fun _ => { dropped := 0, err := none })
    (fun _ => { dropped := 0, err := none }) { sync := fun _ s => s }
    { accessToken := "tok", accessTokenPassthrough := false, syncHostMetadata := false,
      maxConnections := 2,
      httpClientSettings := { headers := none, tlsSetting := "", maxIdleConns := none,
                              maxIdleConnsPerHost := none,
                              idleConnTimeout := none } } rfl).1

/-- C7: the Coordinator lifecycle is managed: start from idle launches the
background loop (phase running); stop while running returns one final flush
of everything pending and leaves the coordinator stopped with nothing
pending; starting twice is the defined idempotent no-op; and enqueue after
stop is the defined no-op returning false with the state unchanged — none
of these operations is a crash (all are total functions). -/
theorem coordinator_lifecycle (st : CoordState) (u : PropertyUpdate) :
    (CoordState.start { st with phase := .idle }).phase = .running ∧
    (st.phase = .running →
      (CoordState.stop st).1 = st.pending.map Prod.snd ∧
      (CoordState.stop st).2.phase = .stopped ∧
      (CoordState.stop st).2.pending = []) ∧
    CoordState.start (CoordState.start st) = CoordState.start st ∧
    (st.phase = .stopped → (st.enqueue u).1 = false ∧ (st.enqueue u).2 = st) := by
  refine ⟨rfl, ?_, ?_, ?_⟩
  · intro h
    simp [CoordState.stop, h]
  · rcases hp : st.phase <;> simp [CoordState.start, hp]
  · intro h
    simp [CoordState.enqueue, h]

/-- C7 witness: a concrete running coordinator with one pending update;
applying the theorem, stopping it flushes that update and stops the loop. -/
theorem coordinator_lifecycle_witness :
    (CoordState.stop { pending := [("host-1", { resourceKey := "host-1", properties := [],
                                                tags := [] })],
                       capacity := 5, rejected := 0, phase := .running }).2.phase =
      CoordPhase.stopped :=
  ((coordinator_lifecycle
    { pending := [("host-1", { resourceKey := "host-1", properties := [], tags := [] })],
      capacity := 5, rejected := 0, phase := .running }
    { resourceKey := "host-1", properties := [], tags := [] }).2.1 rfl).2.1

/-- C8: bounded pending: assuming the invariant |pending| ≤ capacity, every
enqueue preserves it with the capacity unchanged; flush, start and stop also
preserve it and a fresh coordinator satisfies it; and when pending is full
and the key is new (and the coordinator is not stopped), the update is
rejected: enqueue returns false, increments the rejection counter, and
leaves the pending entries exactly as they were — nothing is evicted. -/
theorem coordinator_capacity (st : CoordState) (u : PropertyUpdate) (c0 : Nat)
    (h : st.pending.length ≤ st.capacity) :
    (st.enqueue u).2.pending.length ≤ st.capacity ∧
    (st.enqueue u).2.capacity = st.capacity ∧
    st.flushDrain.2.pending.length ≤ st.capacity ∧
    (CoordState.start st).pending = st.pending ∧
    (CoordState.stop st).2.pending.length ≤ st.capacity ∧
    (initCoord c0).pending.length ≤ (initCoord c0).capacity ∧
    (st.phase ≠ .stopped → st.pending.length = st.capacity →
      pendLookup st.pending u.resourceKey = none →
      (st.enqueue u).1 = false ∧ (st.enqueue u).2.pending = st.pending ∧
      (st.enqueue u).2.rejected = st.rejected + 1) := by
  have henq : (st.enqueue u).2.pending.length ≤ st.capacity ∧
      (st.enqueue u).2.capacity = st.capacity := by
    unfold CoordState.enqueue
    rcases hp : st.phase
    · rcases hl : pendLookup st.pending u.resourceKey with _ | old
      · by_cases hlen : st.pending.length < st.capacity <;> simp [hl, hlen] <;> omega
      · simp [hl, h]
    · rcases hl : pendLookup st.pending u.resourceKey with _ | old
      · by_cases hlen : st.pending.length < st.capacity <;> simp [hl, hlen] <;> omega
      · simp [hl, h]
    · exact ⟨h, rfl⟩
  refine ⟨henq.1, henq.2, by simp [CoordState.flushDrain], ?_, ?_, by simp [initCoord], ?_⟩
  · rcases hp : st.phase <;> simp [CoordState.start, hp]
  · rcases hp : st.phase <;> simp [CoordState.stop, hp, h]
  · intro hphase hfull hnew
    unfold CoordState.enqueue
    rcases hp : st.phase
    · simp [hnew, hfull]
    · simp [hnew, hfull]
    · exact absurd hp hphase

/-- C8 witness: a concrete coordinator at capacity 1; enqueueing a second
distinct key is rejected while the original pending entry stays intact. -/
theorem coordinator_capacity_witness :
    (CoordState.enqueue { pending := [("host-1", { resourceKey := "host-1", properties := [],
                                                   tags := [] })],
                          capacity := 1, rejected := 0, phase := .running }
      { resourceKey := "host-2", properties := [], tags := [] }).1 = false :=
  ((coordinator_capacity
    { pending := [("host-1", { resourceKey := "host-1", properties := [], tags := [] })],
      capacity := 1, rejected := 0, phase := .running }
    { resourceKey := "host-2", properties := [], tags := [] } 0
    (by decide)).2.2.2.2.2.2 (by decide) rfl (by decide)).1

end SignalFx
